import Mathlib

/-!
Shallow embedding of the BioInsight evidence-confidence engine.

The definitions below are translated from the repository sources:
* `backend/app/utils/scoring.py` (`calculate_confidence`),
* `backend/app/services/opentargets.py` (`aggregate_sources`,
  `extract_sources_from_evidence`, `get_drug_target_interactions`),
* `backend/app/utils/extraction.py` (`extract_regex_entities`),
* `backend/app/services/llm.py` (`LLMService.analyze`).

Modelling conventions: Python floats are modelled as exact rationals (`ℚ`);
Python dict fields of evidence rows are modelled as record fields that are
always present but possibly `None` (`Option`), matching the GraphQL row shape
the repository works with (every requested field is present, possibly null).
Python truthiness of a string-valued field ("falsy" means `None` or `""`) is
modelled explicitly.
-/

namespace BioInsight

/-- Checks whether `n` occurs as a contiguous run inside the character list
(Python `needle in haystack` on strings). -/
def isSubstrList : List Char → List Char → Bool
  | n, [] => n.isEmpty
  | n, c :: t => n.isPrefixOf (c :: t) || isSubstrList n t

/-- Python `needle in hay` for strings. -/
def strContains (hay needle : String) : Bool :=
  isSubstrList needle.data hay.data

/-- Python `any(x in s for x in needles)`. -/
def anyContains (s : String) (needles : List String) : Bool :=
  needles.any (fun n => strContains s n)

/-- Adds a string to the accumulated list unless already present: this is how a
Python `set` accumulates members, keeping first-insertion order for counting. -/
def insertUniq (l : List String) (s : String) : List String :=
  if s ∈ l then l else l ++ [s]

/-- Membership-deduplicating fold modelling accumulation into a Python `set`. -/
def dedupFirst (l : List String) : List String :=
  l.foldl insertUniq []

/-- Lower-cases one ASCII character (Python `str.lower` restricted to the
ASCII source tags the scorer handles). -/
def lowerChar (c : Char) : Char :=
  if 65 ≤ c.toNat ∧ c.toNat ≤ 90 then Char.ofNat (c.toNat + 32) else c

/-- Python `s.lower()`. -/
def pyLower (s : String) : String :=
  ⟨s.data.map lowerChar⟩

/-- Upper-cases one ASCII character (Python `str.upper` restricted to the
ASCII datasource ids involved). -/
def upperChar (c : Char) : Char :=
  if 97 ≤ c.toNat ∧ c.toNat ≤ 122 then Char.ofNat (c.toNat - 32) else c

/-- Python `s.upper()`. -/
def pyUpper (s : String) : String :=
  ⟨s.data.map upperChar⟩

/-- Whitespace characters stripped by Python `str.strip()`. -/
def isPySpace (c : Char) : Bool :=
  c == ' ' || c == '\t' || c == '\n' || c == '\r' || c == '\x0b' || c == '\x0c'

/-- Python `s.strip()`. -/
def pyStrip (s : String) : String :=
  ⟨((s.data.dropWhile isPySpace).reverse.dropWhile isPySpace).reverse⟩

/-- Python truthiness of an optional string: `None` and `""` are falsy. -/
def truthyStr : Option String → Bool
  | none => false
  | some s => s != ""

/-- Python `a or b` restricted to optional strings, as used in
`m.get("datasourceId") or m.get("source") or m.get("drugType")`. -/
def pyOr (a b : Option String) : Option String :=
  if truthyStr a then a else b

/-- Insertion step of a lexicographic string sort (Python `sorted`). -/
def insertSorted (s : String) : List String → List String
  | [] => [s]
  | a :: t => if s ≤ a then s :: a :: t else a :: insertSorted s t

/-- Python `sorted(list_of_strings)`. -/
def sortStrings (l : List String) : List String :=
  l.foldr insertSorted []

/-- Python banker's rounding (`round`) of a rational to the nearest integer,
ties to even. -/
def pyRound (x : ℚ) : ℤ :=
  if x - ⌊x⌋ < 1/2 then ⌊x⌋
  else if x - ⌊x⌋ = 1/2 then (if 2 ∣ ⌊x⌋ then ⌊x⌋ else ⌊x⌋ + 1)
  else ⌊x⌋ + 1

/-- Python `round(x, k)`. -/
def roundTo (k : ℕ) (x : ℚ) : ℚ :=
  (pyRound (x * 10 ^ k) : ℚ) / 10 ^ k

/-- Python `round(x, 1)`. -/
def round1 (x : ℚ) : ℚ := roundTo 1 x

/-- Python `round(x, 3)`. -/
def round3 (x : ℚ) : ℚ := roundTo 3 x

/-- One entry of a `references` list: `{source, urls}`. -/
structure RefEntry where
  source : String
  urls : List String
deriving DecidableEq

/-- The `drug` object attached to an evidence row (`{name, id}`). -/
structure DrugRef where
  id : String
  name : String
deriving DecidableEq

/-- The `target` object of a knownDrugs row (`{id, approvedSymbol}`). -/
structure TargetRef where
  id : String
  approvedSymbol : String
deriving DecidableEq

/-- One raw or merged evidence row, as the Python dicts flowing between
`aggregate_sources`, `extract_sources_from_evidence` and
`calculate_confidence`.  Fields are present-but-possibly-null (`Option`);
merged rows produced by `aggregate_sources` carry `none` for
`datasourceId`/`source`, matching the dict literal built there. -/
structure EvidenceItem where
  drug : Option DrugRef
  target : Option TargetRef
  drugType : Option String
  phase : Option ℚ
  mechanismOfAction : Option String
  datasourceId : Option String
  source : Option String
  references : List RefEntry
deriving DecidableEq

/-! Confidence scorer (`backend/app/utils/scoring.py`, `calculate_confidence`). -/

/-- Python `m.get("phase", 0) or 0`: a missing/null/zero phase collapses to 0. -/
def phaseVal (m : EvidenceItem) : ℚ :=
  m.phase.getD 0

/-- The ETS scan: running maximum of `phase` together with the
`mechanismOfAction` of the row achieving it (`max_phase` starts at 0,
`mechanism_of_action` at `None`; update on strict increase). -/
def maxPhaseMech (ms : List EvidenceItem) : ℚ × Option String :=
  ms.foldl
    (fun s m => if s.1 < phaseVal m then (phaseVal m, m.mechanismOfAction) else s)
    (0, none)

/-- Maximum clinical phase across the evidence rows. -/
def maxPhaseOf (ms : List EvidenceItem) : ℚ :=
  (maxPhaseMech ms).1

/-- Mechanism attached to the max-phase row. -/
def mechOf (ms : List EvidenceItem) : Option String :=
  (maxPhaseMech ms).2

/-- Python `any(str(m.get("source", "")).lower() in ["animal", "preclinical",
"in_vivo"] for m in ms)`. -/
def hasPreclinical (ms : List EvidenceItem) : Bool :=
  ms.any (fun m => (pyLower (m.source.getD "")) ∈ ["animal", "preclinical", "in_vivo"])

/-- Evidence Type Score: non-linear step function of the maximum phase. -/
def etsOf (ms : List EvidenceItem) : ℚ :=
  if maxPhaseOf ms = 4 then 1.0
  else if maxPhaseOf ms = 3 then 0.85
  else if maxPhaseOf ms = 2 then 0.65
  else if maxPhaseOf ms = 1 then 0.45
  else if maxPhaseOf ms = 0.5 then 0.35
  else if hasPreclinical ms then 0.25 else 0.15

/-- Python `m.get("datasourceId") or m.get("source") or m.get("drugType")`
followed by the `if evidence_source:` truthiness guard: the evidence-level
source tag of a row, when one is truthy. -/
def evidenceTag (m : EvidenceItem) : Option String :=
  let es := pyOr (pyOr m.datasourceId m.source) m.drugType
  match es with
  | some s => if s = "" then none else some s
  | none => none

/-- Source tags a single row contributes to `unique_sources`: the truthy
evidence-level tag, then each truthy reference-level `source`. -/
def itemSourceTags (m : EvidenceItem) : List String :=
  (evidenceTag m).toList ++ (m.references.map RefEntry.source).filter (fun s => s ≠ "")

/-- The `unique_sources` set in first-insertion order. -/
def uniqueSourcesOf (ms : List EvidenceItem) : List String :=
  dedupFirst (ms.flatMap itemSourceTags)

/-- Python `len(unique_sources)`. -/
def sourceCountOf (ms : List EvidenceItem) : ℕ :=
  (uniqueSourcesOf ms).length

/-- The `source_types` tallies `{"expert": _, "database": _, "text_mining": _}`. -/
structure SourceTypes where
  expert : ℕ
  database : ℕ
  text_mining : ℕ
deriving DecidableEq

/-- Expert-bucket substrings used when categorizing an evidence-level tag. -/
def ecsExpertListE : List String := ["chembl", "fda", "drugbank", "ttd"]

/-- Expert-bucket substrings used when categorizing a reference-level tag. -/
def ecsExpertListR : List String := ["chembl", "fda", "drugbank", "ttd", "dailymed"]

/-- Text-mining-bucket substrings of the ECS categorization. -/
def ecsTextMiningList : List String := ["europepmc", "pubmed", "mining", "literature"]

/-- Categorizes one source tag into the `source_types` tallies. -/
def bumpTypes (expertList : List String) (t : SourceTypes) (s : String) : SourceTypes :=
  let sl := pyLower s
  if anyContains sl expertList then { t with expert := t.expert + 1 }
  else if anyContains sl ecsTextMiningList then { t with text_mining := t.text_mining + 1 }
  else { t with database := t.database + 1 }

/-- The `source_types` tallies over the whole evidence list: the truthy
evidence-level tag of each row, then each truthy reference-level tag. -/
def typesOf (ms : List EvidenceItem) : SourceTypes :=
  ms.foldl
    (fun t m =>
      let t1 := match evidenceTag m with
        | some s => bumpTypes ecsExpertListE t s
        | none => t
      (m.references.map RefEntry.source).foldl
        (fun t2 s => if s ≠ "" then bumpTypes ecsExpertListR t2 s else t2) t1)
    ⟨0, 0, 0⟩

/-- Evidence Count Score as a step function of the unique-source count. -/
def ecsFromCount (n : ℕ) : ℚ :=
  if n = 0 then 0.10
  else if n ≥ 10 then 1.0
  else if n ≥ 7 then 0.95
  else if n ≥ 5 then 0.85
  else if n ≥ 3 then 0.70
  else if n = 2 then 0.50
  else 0.30

/-- Evidence Count Score of an evidence list. -/
def ecsOf (ms : List EvidenceItem) : ℚ :=
  ecsFromCount (sourceCountOf ms)

/-- Substrings classified as curated (quality 1.0) in the EQS computation. -/
def eqsCuratedList : List String :=
  ["chembl", "fda", "expert", "curated_manual", "drugbank", "dailymed"]

/-- Substrings classified as text mining (quality 0.5) in the EQS computation. -/
def eqsTextMiningList : List String :=
  ["europepmc", "pubmed", "mining", "automated", "literature"]

/-- Quality classification of one lower-cased source tag. -/
def classifyQuality (srcLower : String) : ℚ :=
  if anyContains srcLower eqsCuratedList then 1.0
  else if anyContains srcLower eqsTextMiningList then 0.5
  else 0.75

/-- Quality scores one row appends: one for the truthy evidence-level tag,
then one for every reference entry (the reference loop of the EQS section has
no truthiness guard, so empty reference sources also contribute). -/
def itemQualities (m : EvidenceItem) : List ℚ :=
  (match evidenceTag m with
    | some s => [classifyQuality (pyLower s)]
    | none => []) ++
  m.references.map (fun r => classifyQuality (pyLower r.source))

/-- The `quality_scores` list over the whole evidence list. -/
def qualityScoresOf (ms : List EvidenceItem) : List ℚ :=
  ms.flatMap itemQualities

/-- Python `max` of a nonempty list (only applied to nonempty lists). -/
def pyMax : List ℚ → ℚ
  | [] => 0
  | a :: t => t.foldl max a

/-- The text-mining-only penalty condition. -/
def tmOnlyPenalty (ms : List EvidenceItem) : Bool :=
  let t := typesOf ms
  decide (t.text_mining > 0 ∧ t.expert = 0 ∧ t.database = 0)

/-- The pre-penalty EQS value: blend of max and mean quality, 0.5 flat when
no quality scores were collected. -/
def eqsBase (qs : List ℚ) : ℚ :=
  match qs with
  | [] => 0.50
  | _ => pyMax qs * 0.6 + (qs.sum / qs.length) * 0.4

/-- Evidence Quality Score: blend of max and mean quality, 0.5 when no tags
exist, with a 30% multiplicative penalty when only text-mining tags exist. -/
def eqsOf (ms : List EvidenceItem) : ℚ :=
  if tmOnlyPenalty ms then eqsBase (qualityScoresOf ms) * 0.7
  else eqsBase (qualityScoresOf ms)

/-- The normalized `mechanisms` list: lower-cased, trimmed, truthy only. -/
def mechanismsOf (ms : List EvidenceItem) : List String :=
  ms.flatMap (fun m =>
    match m.mechanismOfAction with
    | some s => if s = "" then [] else [pyStrip (pyLower s)]
    | none => [])

/-- Number of distinct normalized mechanisms (`len(set(mechanisms))`). -/
def uniqueMechCount (ms : List EvidenceItem) : ℕ :=
  (dedupFirst (mechanismsOf ms)).length

/-- Consistency Score: step function of the distinct-mechanism count. -/
def csOf (ms : List EvidenceItem) : ℚ :=
  if uniqueMechCount ms ≤ 1 then 1.0
  else if uniqueMechCount ms = 2 then 0.80
  else if uniqueMechCount ms = 3 then 0.55
  else 0.30

/-- Weighted combination of the four factors. -/
def weightedOf (ms : List EvidenceItem) : ℚ :=
  etsOf ms * 0.40 + ecsOf ms * 0.25 + eqsOf ms * 0.20 + csOf ms * 0.15

/-- Evidence-depth bonus multiplier from the raw evidence-item count. -/
def depthBonus (n : ℕ) : ℚ :=
  if n ≥ 20 then 1.05
  else if n ≥ 10 then 1.03
  else if n ≥ 5 then 1.01
  else 1.0

/-- The pre-rounding final score: weighted score on a 0-100 scale, depth
bonus applied, capped at 100. -/
def finalOf (ms : List EvidenceItem) : ℚ :=
  min (weightedOf ms * 100 * depthBonus ms.length) 100.0

/-- The clinical-tier phrase of the reasoning string (its preclinical check
uses only `["animal", "preclinical"]`). -/
def tierPhrase (ms : List EvidenceItem) : String :=
  if maxPhaseOf ms = 4 then "FDA approved with strong clinical evidence"
  else if maxPhaseOf ms = 3 then "Late-stage clinical trials (Phase 3)"
  else if maxPhaseOf ms = 2 then "Mid-stage clinical trials (Phase 2)"
  else if maxPhaseOf ms = 1 then "Early-stage clinical trials (Phase 1)"
  else if ms.any (fun m => (pyLower (m.source.getD "")) ∈ ["animal", "preclinical"]) then
    "Preclinical evidence only"
  else "Literature-based evidence only"

/-- The source-diversity phrase of the reasoning string, a function of
`source_count` alone. -/
def sourcePhrase (n : ℕ) : String :=
  if n ≥ 7 then "highly replicated (" ++ Nat.repr n ++ " independent sources)"
  else if n ≥ 4 then "well-supported (" ++ Nat.repr n ++ " sources)"
  else if n = 1 then "⚠ single source"
  else if n = 0 then "⚠ no source information"
  else Nat.repr n ++ " sources"

/-- Index of the branch taken when selecting the source-diversity phrase
(0: highly replicated, 1: well-supported, 2: single source,
3: no source information, 4: the plain count phrase). -/
def sourcePhraseBranch (n : ℕ) : ℕ :=
  if n ≥ 7 then 0
  else if n ≥ 4 then 1
  else if n = 1 then 2
  else if n = 0 then 3
  else 4

/-- The ordered `reasoning_parts` list. -/
def reasoningPartsOf (ms : List EvidenceItem) : List String :=
  [tierPhrase ms, sourcePhrase (sourceCountOf ms)] ++
  (if (typesOf ms).expert > 0 then ["expert-curated"]
   else if (typesOf ms).text_mining =
          (typesOf ms).expert + (typesOf ms).database + (typesOf ms).text_mining ∧
        (typesOf ms).text_mining > 0 then ["⚠ text-mining only"]
   else []) ++
  (if uniqueMechCount ms > 2 then
     ["⚠ " ++ Nat.repr (uniqueMechCount ms) ++ " different mechanisms reported"]
   else []) ++
  (if truthyStr (mechOf ms) ∧ uniqueMechCount ms = 1 then
     ["(via " ++ (mechOf ms).getD "" ++ ")"]
   else [])

/-- The `factors` breakdown of a confidence result. -/
structure Factors where
  ets : ℚ
  ecs : ℚ
  eqs : ℚ
  cs : ℚ
  weighted_score : ℚ
  source_breakdown : SourceTypes
deriving DecidableEq

/-- The dict returned by `calculate_confidence`.  The empty-evidence result
carries no `mechanism` key and an empty `factors` dict; both are modelled as
`none`. -/
structure ConfidenceResult where
  score : ℚ
  max_phase : ℚ
  evidence_count : ℕ
  source_count : ℕ
  mechanism : Option String
  evidence_types : List String
  reasoning : String
  factors : Option Factors
deriving DecidableEq

/-- The confidence scorer `calculate_confidence` of
`backend/app/utils/scoring.py`. -/
def calculate_confidence (ms : List EvidenceItem) : ConfidenceResult :=
  match ms with
  | [] =>
    { score := 0.0, max_phase := 0, evidence_count := 0, source_count := 0,
      mechanism := none, evidence_types := [], reasoning := "No evidence found",
      factors := none }
  | _ =>
    { score := round1 (finalOf ms)
      max_phase := maxPhaseOf ms
      evidence_count := ms.length
      source_count := sourceCountOf ms
      mechanism := mechOf ms
      evidence_types := sortStrings (uniqueSourcesOf ms)
      reasoning := String.intercalate " • " (reasoningPartsOf ms)
      factors := some
        { ets := round3 (etsOf ms), ecs := round3 (ecsOf ms)
          eqs := round3 (eqsOf ms), cs := round3 (csOf ms)
          weighted_score := round3 (weightedOf ms)
          source_breakdown := typesOf ms } }

/-! Evidence aggregation (`backend/app/services/opentargets.py`). -/

/-- The grouping key `(drug_id, target_id, phase, mechanism)` of
`aggregate_sources` (`item.get("drug", {}).get("id", "")` and so on). -/
def aggKey (m : EvidenceItem) : String × String × Option ℚ × Option String :=
  ((m.drug.map DrugRef.id).getD "", (m.target.map TargetRef.id).getD "",
    m.phase, m.mechanismOfAction)

/-- Appends one reference to a group's reference list unless its `source` is
falsy or already present (`if source and source not in [...]`). -/
def addRef (refs : List RefEntry) (r : RefEntry) : List RefEntry :=
  if r.source ≠ "" ∧ r.source ∉ refs.map RefEntry.source then refs ++ [r] else refs

/-- Folds a row's references into a group's accumulated references. -/
def addRefs (refs newRefs : List RefEntry) : List RefEntry :=
  newRefs.foldl addRef refs

/-- The fresh group dict built when a key is first seen: the first item's
`drug`/`target`/`drugType`/`phase`/`mechanismOfAction` and an empty reference
list.  The built dict carries no `datasourceId`/`source` keys. -/
def initMerged (m : EvidenceItem) : EvidenceItem :=
  { drug := m.drug, target := m.target, drugType := m.drugType, phase := m.phase,
    mechanismOfAction := m.mechanismOfAction, datasourceId := none, source := none,
    references := [] }

/-- Folds a row's references into the entry holding key `k`, leaving other
entries unchanged (the `grouped[key]["references"]` update). -/
def updEntry (k : String × String × Option ℚ × Option String) (m : EvidenceItem)
    (p : (String × String × Option ℚ × Option String) × EvidenceItem) :
    (String × String × Option ℚ × Option String) × EvidenceItem :=
  if p.1 = k then (p.1, { p.2 with references := addRefs p.2.references m.references })
  else p

/-- Processes one raw row into the insertion-ordered `grouped` dict
(modelled as an association list, as Python dicts preserve insertion order). -/
def aggInsert (acc : List ((String × String × Option ℚ × Option String) × EvidenceItem))
    (m : EvidenceItem) :
    List ((String × String × Option ℚ × Option String) × EvidenceItem) :=
  if acc.any (fun p => p.1 = aggKey m) then
    acc.map (updEntry (aggKey m) m)
  else
    acc ++ [(aggKey m, { initMerged m with references := addRefs [] m.references })]

/-- The aggregator `aggregate_sources` of `backend/app/services/opentargets.py`:
groups rows by `(drug_id, target_id, phase, mechanism)` and de-duplicates
references by `source`, first occurrence winning, order preserved. -/
def aggregate_sources (evidence_list : List EvidenceItem) : List EvidenceItem :=
  (evidence_list.foldl aggInsert []).map Prod.snd

/-- The source-inference pass `extract_sources_from_evidence`: unconditionally
appends a ChEMBL reference, FDA and DailyMed for phase 4, ClinicalTrials.gov
for phases 1-4, and DrugBank when a mechanism string is truthy. -/
def extract_sources_from_evidence (evidence_list : List EvidenceItem) : List EvidenceItem :=
  evidence_list.map (fun item =>
    let phase := item.phase.getD 0
    let inferred :=
      [RefEntry.mk "ChEMBL" []] ++
      (if phase = 4 then [RefEntry.mk "FDA" [], RefEntry.mk "DailyMed" []] else []) ++
      (if phase = 1 ∨ phase = 2 ∨ phase = 3 ∨ phase = 4 then
        [RefEntry.mk "ClinicalTrials.gov" []] else []) ++
      (if truthyStr item.mechanismOfAction then [RefEntry.mk "DrugBank" []] else [])
    { item with references := item.references ++ inferred })

/-! Evidence fetch with retries (`get_drug_target_interactions`).  The remote
calls are modelled by oracles: `oracle n` is the outcome of the `n`-th
knownDrugs attempt, and `evOracle` the outcome of the target-centric evidence
query. -/

/-- Outcome of one remote knownDrugs request. -/
inductive NetResult where
  | timeout
  | err
  | ok (rows : List EvidenceItem)
deriving DecidableEq

/-- The retry loop `for attempt in range(max_retries)` around the knownDrugs
query: returns the accepted rows, the backoff sleeps performed (seconds), and
the number of attempts made.  On `ok` the loop breaks with the rows; on a
non-timeout error it breaks with nothing; on timeout it sleeps `2^attempt`
only when later attempts remain. -/
def knownDrugsLoop (oracle : ℕ → NetResult) : ℕ → ℕ → List EvidenceItem × List ℕ × ℕ
  | _, 0 => ([], [], 0)
  | attempt, rem + 1 =>
    match oracle attempt with
    | NetResult.ok rows => (rows, [], 1)
    | NetResult.err => ([], [], 1)
    | NetResult.timeout =>
      let rest := knownDrugsLoop oracle (attempt + 1) rem
      (rest.1, (if rem > 0 then [2 ^ attempt] else []) ++ rest.2.1, rest.2.2 + 1)

/-- Row filtering and enrichment done on a successful knownDrugs response:
keep rows whose target id equals the requested one and attach the resolved
drug `{name, id}`. -/
def acceptRows (rows : List EvidenceItem) (targetId drugId canonicalName : String) :
    List EvidenceItem :=
  (rows.filter (fun r => (r.target.map TargetRef.id).getD "" = targetId)).map
    (fun r => { r with drug := some ⟨drugId, canonicalName⟩ })

/-- One row of the target-centric evidence query (only the fields the code
reads: `datasourceId` and `drug.id`). -/
structure EvRow where
  datasourceId : String
  drugId : String
deriving DecidableEq

/-- The enrichment step of query 2: when drug-specific evidence rows and a
nonempty `all_evidence` both exist, the distinct datasource ids are appended
(upper-cased) as extra references onto the first evidence item. -/
def enrichFirst (allEvidence : List EvidenceItem) (evRows : List EvRow) (drugId : String) :
    List EvidenceItem :=
  match allEvidence with
  | [] => []
  | first :: rest =>
    let drugSpecific := evRows.filter (fun r => r.drugId = drugId)
    if drugSpecific.isEmpty then first :: rest
    else
      let additional := dedupFirst (drugSpecific.map EvRow.datasourceId)
      { first with references :=
          first.references ++ additional.map (fun s => RefEntry.mk (pyUpper s) []) } :: rest

/-- Trace of the observable remote activity of one
`get_drug_target_interactions` call. -/
structure FetchTrace where
  attempts : ℕ
  sleeps : List ℕ
  evidenceQueryMade : Bool
deriving DecidableEq

/-- The fetcher `get_drug_target_interactions`: resolves the drug name (the
outcome is `resolveRes`), returns empty immediately on failure, otherwise runs
the retried knownDrugs query, the single target-centric evidence query
(failures there modelled by `evOracle = none`), and finally aggregation plus
source inference when any evidence was found. -/
def get_drug_target_interactions (resolveRes : Option (String × String))
    (oracle : ℕ → NetResult) (evOracle : Option (List EvRow))
    (targetId : String) (maxRetries : ℕ) : List EvidenceItem × FetchTrace :=
  match resolveRes with
  | none => ([], ⟨0, [], false⟩)
  | some (drugId, canonicalName) =>
    let loopOut := knownDrugsLoop oracle 0 maxRetries
    let allEvidence := acceptRows loopOut.1 targetId drugId canonicalName
    let enriched :=
      match evOracle with
      | none => allEvidence
      | some evRows => enrichFirst allEvidence evRows drugId
    let result :=
      match enriched with
      | [] => []
      | _ => extract_sources_from_evidence (aggregate_sources enriched)
    (result, ⟨loopOut.2.2, loopOut.2.1, true⟩)

/-! Deterministic pattern extractor (`backend/app/utils/extraction.py`,
`extract_regex_entities`).  Regex matching itself is abstracted: every one of
the six templates has exactly two mandatory capture groups (`([\w-]+)` and
friends), so the outcome of trying one template on the pre-cleaned text is
`none` (no match) or `some (group1, group2)`; the list of outcomes in template
order is the function's input. -/

/-- The first-match-wins scan over the ordered template outcomes, setting both
entries of the `{"drug": None, "target": None}` dict from groups 1 and 2 of
the first template that matches. -/
def extract_regex_entities (patternOutcomes : List (Option (String × String))) :
    Option String × Option String :=
  match patternOutcomes.findSome? id with
  | some (d, t) => (some d, some t)
  | none => (none, none)

/-! Narrative analysis entry point (`backend/app/services/llm.py`,
`LLMService.analyze`). -/

/-- The metadata block of the structured evidence digest built in `main.py`
(`analyze` only reads `confidence_score`; a missing key is `none`). -/
structure DigestMetadata where
  confidence_score : Option ℚ
  max_phase : ℚ
  deduplicated_evidence_count : ℕ
  unique_sources : ℕ
  evidence_types : List String
  reasoning : String
deriving DecidableEq

/-- One of the up-to-5 evidence items of the digest. -/
structure DigestItem where
  drug : Option String
  target : String
  mechanism : Option String
  phase : Option ℚ
  drugType : Option String
  references : List String
deriving DecidableEq

/-- The structured evidence digest handed to the narrative generator. -/
structure EvidenceData where
  metadata : DigestMetadata
  evidence_items : List DigestItem
deriving DecidableEq

/-- The fixed fallback string `FALLBACK_PROMPT`. -/
def FALLBACK_PROMPT : String :=
  "The system could not retrieve valid evidence for this drug-target interaction. No clinical or preclinical data is available in the current search scope."

/-- The narrative entry point `LLMService.analyze`: returns the produced string
together with whether the text-generation capability was invoked.  The
generation itself is modelled by `gen`. -/
def LLMService.analyze (ollamaReady : Bool) (d : EvidenceData)
    (gen : EvidenceData → String) : String × Bool :=
  if d.metadata.confidence_score = some 0 ∨ d.evidence_items = [] then
    (FALLBACK_PROMPT, false)
  else if ollamaReady then (gen d, true)
  else ("Error: Local AI Assistant (Ollama DeepSeek) is not running. Please start Ollama to see the AI analysis.", false)

/-- The clinical-tier step values on phases 1 to 4, as a helper for stating
the monotonicity argument. -/
def phaseStep (p : ℚ) : ℚ :=
  if p = 4 then 1.0
  else if p = 3 then 0.85
  else if p = 2 then 0.65
  else 0.45

/-- A single phase-4 row with no evidence-level source tag and a lone
ChEMBL reference (the C3 scenario input). -/
def phase4ChemblItem : EvidenceItem :=
  { drug := none, target := none, drugType := none, phase := some 4,
    mechanismOfAction := none, datasourceId := none, source := none,
    references := [⟨"ChEMBL", []⟩] }

/-- A single row whose only source tag is the evidence-level string "ttd". -/
def ttdOnlyItem : EvidenceItem :=
  { drug := none, target := none, drugType := none, phase := none,
    mechanismOfAction := none, datasourceId := none, source := some "ttd",
    references := [] }

/-- A row carrying only reference-level source tags. -/
def refsItem (srcs : List String) : EvidenceItem :=
  { drug := none, target := none, drugType := none, phase := none,
    mechanismOfAction := none, datasourceId := none, source := none,
    references := srcs.map (fun s => ⟨s, []⟩) }

/-- A minimal row carrying only a clinical phase. -/
def phaseItem (p : ℚ) : EvidenceItem :=
  { drug := none, target := none, drugType := none, phase := some p,
    mechanismOfAction := none, datasourceId := none, source := none,
    references := [] }

/-- Well-formedness of a merged reference list: the `source` strings are
pairwise distinct and nonempty (exactly what `addRef` accumulates). -/
def CleanRefs (refs : List RefEntry) : Prop :=
  (refs.map RefEntry.source).Nodup ∧ ∀ r ∈ refs, r.source ≠ ""

/-- Invariant of one entry of the `grouped` association list: the stored key
is the row's key, its references are clean, and the merged dict carries no
`datasourceId`/`source`. -/
def EntryInv (p : (String × String × Option ℚ × Option String) × EvidenceItem) : Prop :=
  p.1 = aggKey p.2 ∧ CleanRefs p.2.references ∧
  p.2.datasourceId = none ∧ p.2.source = none

/-- Invariant of the whole `grouped` association list: distinct keys, every
entry well-formed. -/
def StateInv (acc : List ((String × String × Option ℚ × Option String) × EvidenceItem)) :
    Prop :=
  (acc.map Prod.fst).Nodup ∧ ∀ p ∈ acc, EntryInv p

/-! Helper lemmas about rounding and the factor bounds. -/

theorem floor_le_pyRound (x : ℚ) : ⌊x⌋ ≤ pyRound x := by
  unfold pyRound
  split_ifs <;> omega

theorem pyRound_le_floor_add_one (x : ℚ) : pyRound x ≤ ⌊x⌋ + 1 := by
  unfold pyRound
  split_ifs <;> omega

theorem pyRound_eq_lo {x : ℚ} (hx : x - ⌊x⌋ < 1/2) : pyRound x = ⌊x⌋ := by
  unfold pyRound
  rw [if_pos hx]

theorem pyRound_eq_tie {x : ℚ} (hx : x - ⌊x⌋ = 1/2) :
    pyRound x = (if 2 ∣ ⌊x⌋ then ⌊x⌋ else ⌊x⌋ + 1) := by
  unfold pyRound
  rw [hx]
  norm_num

theorem pyRound_eq_hi {x : ℚ} (hx : 1/2 < x - ⌊x⌋) : pyRound x = ⌊x⌋ + 1 := by
  unfold pyRound
  rw [if_neg (by linarith), if_neg (by linarith)]

theorem pyRound_mono {x y : ℚ} (h : x ≤ y) : pyRound x ≤ pyRound y := by
  rcases lt_or_ge ⌊x⌋ ⌊y⌋ with hf | hf
  · have h1 := pyRound_le_floor_add_one x
    have h2 := floor_le_pyRound y
    omega
  · have hfe : ⌊x⌋ = ⌊y⌋ := le_antisymm (Int.floor_le_floor h) hf
    have hr : x - (⌊x⌋ : ℚ) ≤ y - (⌊y⌋ : ℚ) := by
      rw [hfe]
      linarith
    rcases lt_trichotomy (x - (⌊x⌋ : ℚ)) (1/2) with hx | hx | hx
    · rw [pyRound_eq_lo hx, hfe]
      exact floor_le_pyRound y
    · rcases lt_or_eq_of_le (hx ▸ hr) with hy | hy
      · rw [pyRound_eq_tie hx, pyRound_eq_hi hy, hfe]
        split_ifs <;> omega
      · rw [pyRound_eq_tie hx, pyRound_eq_tie hy.symm, hfe]
    · have hy : 1/2 < y - (⌊y⌋ : ℚ) := lt_of_lt_of_le hx hr
      rw [pyRound_eq_hi hx, pyRound_eq_hi hy, hfe]

theorem pyRound_intCast (n : ℤ) : pyRound (n : ℚ) = n := by
  unfold pyRound
  rw [Int.floor_intCast]
  norm_num

theorem round1_mono {x y : ℚ} (h : x ≤ y) : round1 x ≤ round1 y := by
  unfold round1 roundTo
  have h10 : x * 10 ^ 1 ≤ y * 10 ^ 1 := by nlinarith
  have hc : ((pyRound (x * 10 ^ 1) : ℤ) : ℚ) ≤ ((pyRound (y * 10 ^ 1) : ℤ) : ℚ) :=
    Int.cast_le.mpr (pyRound_mono h10)
  have hp : (0 : ℚ) ≤ 10 ^ 1 := by norm_num
  exact div_le_div_of_nonneg_right hc hp

theorem round1_twenty : round1 (20 : ℚ) = 20 := by
  have h : (20 : ℚ) * 10 ^ 1 = ((200 : ℤ) : ℚ) := by norm_num
  unfold round1 roundTo
  rw [h, pyRound_intCast]
  norm_num

theorem round1_hundred : round1 (100 : ℚ) = 100 := by
  have h : (100 : ℚ) * 10 ^ 1 = ((1000 : ℤ) : ℚ) := by norm_num
  unfold round1 roundTo
  rw [h, pyRound_intCast]
  norm_num

theorem maxPhaseOf_nil : maxPhaseOf [] = 0 := rfl

theorem score_eq_round1_final (ms : List EvidenceItem) (h : ms ≠ []) :
    (calculate_confidence ms).score = round1 (finalOf ms) := by
  cases ms with
  | nil => exact absurd rfl h
  | cons a t => rfl

theorem one_le_depthBonus (n : ℕ) : (1 : ℚ) ≤ depthBonus n := by
  unfold depthBonus
  split_ifs <;> norm_num

theorem ets_lb (ms : List EvidenceItem) : (0.15 : ℚ) ≤ etsOf ms := by
  unfold etsOf
  split_ifs <;> norm_num

theorem ecs_lb (ms : List EvidenceItem) : (0.10 : ℚ) ≤ ecsOf ms := by
  unfold ecsOf ecsFromCount
  split_ifs <;> norm_num

theorem cs_lb (ms : List EvidenceItem) : (0.30 : ℚ) ≤ csOf ms := by
  unfold csOf
  split_ifs <;> norm_num

theorem half_le_classifyQuality (s : String) : (1/2 : ℚ) ≤ classifyQuality s := by
  unfold classifyQuality
  split_ifs <;> norm_num

theorem half_le_of_mem_qualityScores {q : ℚ} {ms : List EvidenceItem}
    (h : q ∈ qualityScoresOf ms) : (1/2 : ℚ) ≤ q := by
  unfold qualityScoresOf at h
  obtain ⟨m, -, hq⟩ := List.mem_flatMap.mp h
  unfold itemQualities at hq
  rcases List.mem_append.mp hq with h1 | h2
  · rcases hTag : evidenceTag m with - | s
    · rw [hTag] at h1
      simp at h1
    · rw [hTag] at h1
      simp at h1
      rw [h1]
      exact half_le_classifyQuality _
  · obtain ⟨r, -, rfl⟩ := List.mem_map.mp h2
    exact half_le_classifyQuality _

theorem le_foldl_max (l : List ℚ) (a : ℚ) : a ≤ l.foldl max a := by
  induction l generalizing a with
  | nil => exact le_refl a
  | cons b t ih =>
    calc a ≤ max a b := le_max_left a b
      _ ≤ t.foldl max (max a b) := ih (max a b)
      _ = (b :: t).foldl max a := rfl

theorem half_length_le_sum (l : List ℚ) (h : ∀ q ∈ l, (1/2 : ℚ) ≤ q) :
    (l.length : ℚ) / 2 ≤ l.sum := by
  induction l with
  | nil => simp
  | cons a t ih =>
    have ha := h a (List.mem_cons_self a t)
    have ht := ih (fun q hq => h q (List.mem_cons_of_mem a hq))
    simp only [List.length_cons, List.sum_cons]
    push_cast
    linarith

theorem eqsBase_lb (qs : List ℚ) (h : ∀ q ∈ qs, (1/2 : ℚ) ≤ q) :
    (1/2 : ℚ) ≤ eqsBase qs := by
  unfold eqsBase
  cases qs with
  | nil => norm_num
  | cons a t =>
    have ha := h a (List.mem_cons_self a t)
    have hmax : (1/2 : ℚ) ≤ pyMax (a :: t) := le_trans ha (le_foldl_max t a)
    have hlen : (0 : ℚ) < ((a :: t).length : ℚ) := by
      simp only [List.length_cons]
      push_cast
      positivity
    have havg : (1/2 : ℚ) ≤ (a :: t).sum / ((a :: t).length : ℚ) := by
      rw [le_div_iff₀ hlen]
      have := half_length_le_sum (a :: t) h
      linarith
    simp only []
    linarith

theorem eqs_lb (ms : List EvidenceItem) : (0.35 : ℚ) ≤ eqsOf ms := by
  have hb : (1/2 : ℚ) ≤ eqsBase (qualityScoresOf ms) :=
    eqsBase_lb _ (fun q hq => half_le_of_mem_qualityScores hq)
  unfold eqsOf
  split_ifs <;> linarith

theorem weighted_lb (ms : List EvidenceItem) : (0.20 : ℚ) ≤ weightedOf ms := by
  have h1 := ets_lb ms
  have h2 := ecs_lb ms
  have h3 := eqs_lb ms
  have h4 := cs_lb ms
  unfold weightedOf
  linarith


theorem etsOf_eq_phaseStep {ms : List EvidenceItem}
    (h : maxPhaseOf ms ∈ ([1, 2, 3, 4] : List ℚ)) :
    etsOf ms = phaseStep (maxPhaseOf ms) := by
  simp only [List.mem_cons, List.not_mem_nil, or_false] at h
  unfold etsOf phaseStep
  rcases h with h | h | h | h <;> rw [h] <;> norm_num

/-! Concrete evidence rows used in scenario theorems and counterexamples. -/




/-- C1: for the empty evidence list, `calculate_confidence` returns the fixed
zero-confidence result — score 0.0, zero counts, empty source/type sets, the
fixed reasoning string "No evidence found" — and skips the factor
computations (`factors = none`). -/
theorem C1_empty_evidence_zero_result :
    calculate_confidence [] =
      { score := 0.0, max_phase := 0, evidence_count := 0, source_count := 0,
        mechanism := none, evidence_types := [], reasoning := "No evidence found",
        factors := none } := rfl

/-- C3: one record with phase 4, no evidence-level tag and the single
reference ChEMBL, after source inference, scores
`unique_source_count = 4`, `ETS = 1.0` and `ECS = 0.70`. -/
theorem C3_phase4_chembl_scenario :
    sourceCountOf (extract_sources_from_evidence [phase4ChemblItem]) = 4 ∧
    (calculate_confidence (extract_sources_from_evidence [phase4ChemblItem])).source_count = 4 ∧
    etsOf (extract_sources_from_evidence [phase4ChemblItem]) = 1.0 ∧
    ecsOf (extract_sources_from_evidence [phase4ChemblItem]) = 0.70 :=
  ⟨rfl, rfl, rfl, rfl⟩

/-- C4 counterexample: the EQS curated bucket does not include "ttd" — the
tag "ttd" is classified with quality 0.75, not 1.0, and a single record whose
only source tag is "ttd" yields EQS = 0.75. -/
theorem C4_ttd_not_curated_counterexample :
    classifyQuality (pyLower "ttd") = 0.75 ∧ (0.75 : ℚ) ≠ 1.0 ∧
    eqsOf [ttdOnlyItem] = 0.75 := by
  refine ⟨rfl, by norm_num, ?_⟩
  have h1 : qualityScoresOf [ttdOnlyItem] = [(0.75 : ℚ)] := rfl
  have h2 : tmOnlyPenalty [ttdOnlyItem] = false := rfl
  simp only [eqsOf, h1, h2]
  norm_num [eqsBase, pyMax]

/-- C4 amended: in the EQS computation, every source tag whose lower-cased
form contains one of the substrings chembl, fda, drugbank, dailymed, expert,
curated_manual is classified with quality 1.0; "ttd" is not in that bucket,
and a single record whose only source tag is "ttd" yields EQS = 0.75. -/
theorem C4_curated_bucket (tag : String)
    (h : anyContains (pyLower tag) eqsCuratedList = true) :
    classifyQuality (pyLower tag) = 1.0 ∧ eqsOf [ttdOnlyItem] = 0.75 := by
  constructor
  · simp only [classifyQuality, h, if_true]
  · exact C4_ttd_not_curated_counterexample.2.2

/-- Witness for `C4_curated_bucket` at the concrete tag "DrugBank". -/
theorem C4_curated_bucket_witness :
    anyContains (pyLower "DrugBank") eqsCuratedList = true ∧
    classifyQuality (pyLower "DrugBank") = 1.0 :=
  ⟨rfl, (C4_curated_bucket "DrugBank" rfl).1⟩

/-- C5 counterexample: unique-source counts 3 and 4 fall in the same ECS
bucket (both give ECS 0.70) yet produce different source-diversity phrases in
the reasoning, so the phrase is not selected by the ECS thresholds. -/
theorem C5_phrase_thresholds_counterexample :
    sourceCountOf [refsItem ["s1", "s2", "s3"]] = 3 ∧
    sourceCountOf [refsItem ["s1", "s2", "s3", "s4"]] = 4 ∧
    ecsOf [refsItem ["s1", "s2", "s3"]] = ecsOf [refsItem ["s1", "s2", "s3", "s4"]] ∧
    sourcePhrase 3 = "3 sources" ∧
    sourcePhrase 4 = "well-supported (4 sources)" ∧
    sourcePhraseBranch 3 ≠ sourcePhraseBranch 4 ∧
    reasoningPartsOf [refsItem ["s1", "s2", "s3"]] ≠
      reasoningPartsOf [refsItem ["s1", "s2", "s3", "s4"]] := by
  refine ⟨rfl, rfl, rfl, rfl, rfl, by decide, ?_⟩
  intro h
  exact absurd (congrArg (fun l => l.getD 1 "") h) (by decide)

/-- C5 amended: the source-diversity phrase is selected by the thresholds
7, 4, 1, 0 on the unique-source count — not by the ECS bucket boundaries:
any two counts on the same side of all four thresholds select the same phrase
branch, while the counts 3 and 4 share the ECS bucket 0.70 but select
different branches. -/
theorem C5_phrase_thresholds (c1 c2 : ℕ)
    (h7 : c1 ≥ 7 ↔ c2 ≥ 7) (h4 : c1 ≥ 4 ↔ c2 ≥ 4)
    (h1 : c1 = 1 ↔ c2 = 1) (h0 : c1 = 0 ↔ c2 = 0) :
    sourcePhraseBranch c1 = sourcePhraseBranch c2 ∧
    ecsFromCount 3 = ecsFromCount 4 ∧ sourcePhraseBranch 3 ≠ sourcePhraseBranch 4 := by
  refine ⟨?_, rfl, by decide⟩
  simp only [sourcePhraseBranch]
  split_ifs <;> omega

/-- Witness for `C5_phrase_thresholds` at the concrete counts 5 and 6. -/
theorem C5_phrase_thresholds_witness :
    sourcePhraseBranch 5 = sourcePhraseBranch 6 :=
  (C5_phrase_thresholds 5 6 (by decide) (by decide) (by decide) (by decide)).1


/-- C2: ETS is the step function 4 → 1.0, 3 → 0.85, 2 → 0.65, 1 → 0.45,
0.5 → 0.35 of the maximum phase, and for two evidence lists with identical
ECS, EQS, CS and evidence counts whose maximum phases lie in {1, 2, 3, 4},
a larger maximum phase never yields a smaller final score. -/
theorem C2_ets_step_and_monotone :
    (∀ ms : List EvidenceItem,
      (maxPhaseOf ms = 4 → etsOf ms = 1.0) ∧
      (maxPhaseOf ms = 3 → etsOf ms = 0.85) ∧
      (maxPhaseOf ms = 2 → etsOf ms = 0.65) ∧
      (maxPhaseOf ms = 1 → etsOf ms = 0.45) ∧
      (maxPhaseOf ms = 0.5 → etsOf ms = 0.35)) ∧
    (∀ l1 l2 : List EvidenceItem,
      ecsOf l1 = ecsOf l2 → eqsOf l1 = eqsOf l2 → csOf l1 = csOf l2 →
      l1.length = l2.length →
      maxPhaseOf l1 ∈ ([1, 2, 3, 4] : List ℚ) →
      maxPhaseOf l2 ∈ ([1, 2, 3, 4] : List ℚ) →
      maxPhaseOf l1 ≤ maxPhaseOf l2 →
      (calculate_confidence l1).score ≤ (calculate_confidence l2).score) := by
  constructor
  · intro ms
    refine ⟨?_, ?_, ?_, ?_, ?_⟩ <;> (intro h; unfold etsOf; rw [h]; norm_num)
  · intro l1 l2 hecs heqs hcs hlen hm1 hm2 hle
    have hne1 : l1 ≠ [] := by
      intro hnil
      rw [hnil, maxPhaseOf_nil] at hm1
      norm_num at hm1
    have hne2 : l2 ≠ [] := by
      intro hnil
      rw [hnil, maxPhaseOf_nil] at hm2
      norm_num at hm2
    have hets : etsOf l1 ≤ etsOf l2 := by
      rw [etsOf_eq_phaseStep hm1, etsOf_eq_phaseStep hm2]
      simp only [List.mem_cons, List.not_mem_nil, or_false] at hm1 hm2
      rcases hm1 with h1 | h1 | h1 | h1 <;> rcases hm2 with h2 | h2 | h2 | h2 <;>
        rw [h1, h2] <;> rw [h1, h2] at hle <;>
        (try norm_num at hle) <;> (try norm_num [phaseStep])
    have hw : weightedOf l1 ≤ weightedOf l2 := by
      unfold weightedOf
      rw [hecs, heqs, hcs]
      linarith
    have hb1 := one_le_depthBonus l2.length
    have hfin : finalOf l1 ≤ finalOf l2 := by
      unfold finalOf
      rw [hlen]
      have hmul : weightedOf l1 * 100 * depthBonus l2.length ≤
          weightedOf l2 * 100 * depthBonus l2.length := by
        apply mul_le_mul_of_nonneg_right (by linarith) (by linarith)
      exact min_le_min hmul le_rfl
    rw [score_eq_round1_final l1 hne1, score_eq_round1_final l2 hne2]
    exact round1_mono hfin

/-- Witness for `C2_ets_step_and_monotone`: a phase-2 singleton scores no
higher than a phase-3 singleton, and the step values are attained. -/
theorem C2_ets_step_and_monotone_witness :
    etsOf [phaseItem 4] = 1.0 ∧
    (calculate_confidence [phaseItem 2]).score ≤ (calculate_confidence [phaseItem 3]).score :=
  ⟨(C2_ets_step_and_monotone.1 [phaseItem 4]).1 rfl,
    C2_ets_step_and_monotone.2 [phaseItem 2] [phaseItem 3] rfl rfl rfl rfl
      (by decide) (by decide) (by decide)⟩

/-- C9: for every nonempty evidence list the four factors are bounded below
(ETS ≥ 0.15, ECS ≥ 0.10, EQS ≥ 0.35, CS ≥ 0.30), the weighted score is at
least 0.20, and the returned score lies in [20, 100]; in particular a score
of 0.0 is impossible for nonempty evidence. -/
theorem C9_nonempty_score_bounds (ms : List EvidenceItem) (h : ms ≠ []) :
    (0.15 : ℚ) ≤ etsOf ms ∧ (0.10 : ℚ) ≤ ecsOf ms ∧ (0.35 : ℚ) ≤ eqsOf ms ∧
    (0.30 : ℚ) ≤ csOf ms ∧ (0.20 : ℚ) ≤ weightedOf ms ∧
    (20.0 : ℚ) ≤ (calculate_confidence ms).score ∧
    (calculate_confidence ms).score ≤ 100.0 ∧
    (calculate_confidence ms).score ≠ 0.0 := by
  have hw := weighted_lb ms
  have hb := one_le_depthBonus ms.length
  have hfin_lb : (20 : ℚ) ≤ finalOf ms := by
    unfold finalOf
    refine le_min ?_ (by norm_num)
    have h1 : (20 : ℚ) ≤ weightedOf ms * 100 := by linarith
    calc (20 : ℚ) ≤ weightedOf ms * 100 := h1
      _ ≤ weightedOf ms * 100 * depthBonus ms.length :=
          le_mul_of_one_le_right (by linarith) hb
  have hfin_ub : finalOf ms ≤ 100 := by
    have h100 : (100.0 : ℚ) = 100 := by norm_num
    unfold finalOf
    rw [h100]
    exact min_le_right _ _
  have hs := score_eq_round1_final ms h
  have hlb : (20.0 : ℚ) ≤ (calculate_confidence ms).score := by
    rw [hs, show (20.0 : ℚ) = 20 by norm_num]
    calc (20 : ℚ) = round1 (20 : ℚ) := round1_twenty.symm
      _ ≤ round1 (finalOf ms) := round1_mono hfin_lb
  have hub : (calculate_confidence ms).score ≤ 100.0 := by
    rw [hs, show (100.0 : ℚ) = 100 by norm_num]
    calc round1 (finalOf ms) ≤ round1 (100 : ℚ) := round1_mono hfin_ub
      _ = 100 := round1_hundred
  exact ⟨ets_lb ms, ecs_lb ms, eqs_lb ms, cs_lb ms, hw, hlb, hub, by
    intro h0
    rw [h0] at hlb
    norm_num at hlb⟩

/-- Witness for `C9_nonempty_score_bounds` on a concrete singleton list. -/
theorem C9_nonempty_score_bounds_witness :
    (20.0 : ℚ) ≤ (calculate_confidence [phaseItem 4]).score ∧
    (calculate_confidence [phaseItem 4]).score ≠ 0.0 :=
  ⟨(C9_nonempty_score_bounds [phaseItem 4] (List.cons_ne_nil _ _)).2.2.2.2.2.1,
    (C9_nonempty_score_bounds [phaseItem 4] (List.cons_ne_nil _ _)).2.2.2.2.2.2.2⟩


theorem cleanRefs_nil : CleanRefs [] :=
  ⟨List.nodup_nil, by intro r hr; cases hr⟩

theorem addRef_clean {refs : List RefEntry} {r : RefEntry} (h : CleanRefs refs) :
    CleanRefs (addRef refs r) := by
  unfold addRef
  split_ifs with hc
  · obtain ⟨h1, h2⟩ := h
    obtain ⟨hr1, hr2⟩ := hc
    constructor
    · rw [List.map_append]
      apply List.Nodup.append h1 (List.nodup_singleton _)
      intro a ha hb
      simp only [List.map_cons, List.map_nil, List.mem_singleton] at hb
      exact hr2 (hb ▸ ha)
    · intro x hx
      rcases List.mem_append.mp hx with hx | hx
      · exact h2 x hx
      · rw [List.mem_singleton] at hx
        exact hx ▸ hr1
  · exact h

theorem addRefs_clean {refs : List RefEntry} (newRefs : List RefEntry)
    (h : CleanRefs refs) : CleanRefs (addRefs refs newRefs) := by
  induction newRefs generalizing refs with
  | nil => exact h
  | cons r t ih => exact ih (addRef_clean h)

theorem addRefs_of_fresh : ∀ (newRefs acc : List RefEntry),
    (newRefs.map RefEntry.source).Nodup →
    (∀ r ∈ newRefs, r.source ≠ "") →
    (∀ r ∈ newRefs, r.source ∉ acc.map RefEntry.source) →
    addRefs acc newRefs = acc ++ newRefs := by
  intro newRefs
  induction newRefs with
  | nil => intro acc _ _ _; simp [addRefs]
  | cons r t ih =>
    intro acc hnd hne hfresh
    rw [List.map_cons, List.nodup_cons] at hnd
    obtain ⟨hrt, hnd'⟩ := hnd
    have hr : addRef acc r = acc ++ [r] := by
      unfold addRef
      rw [if_pos ⟨hne r (List.mem_cons_self r t), hfresh r (List.mem_cons_self r t)⟩]
    have hstep : addRefs acc (r :: t) = addRefs (acc ++ [r]) t := by
      unfold addRefs
      rw [List.foldl_cons, hr]
    have h2 : addRefs (acc ++ [r]) t = (acc ++ [r]) ++ t := by
      apply ih _ hnd' (fun x hx => hne x (List.mem_cons_of_mem r hx))
      intro x hx hmem
      rw [List.map_append] at hmem
      rcases List.mem_append.mp hmem with hm | hm
      · exact hfresh x (List.mem_cons_of_mem r hx) hm
      · simp only [List.map_cons, List.map_nil, List.mem_singleton] at hm
        exact hrt (hm ▸ List.mem_map_of_mem RefEntry.source hx)
    rw [hstep, h2, List.append_assoc]
    rfl



theorem updEntry_fst (k : String × String × Option ℚ × Option String)
    (m : EvidenceItem)
    (p : (String × String × Option ℚ × Option String) × EvidenceItem) :
    (updEntry k m p).1 = p.1 := by
  unfold updEntry
  split <;> rfl

theorem updEntry_entryInv (k : String × String × Option ℚ × Option String)
    (m : EvidenceItem)
    {p : (String × String × Option ℚ × Option String) × EvidenceItem}
    (h : EntryInv p) : EntryInv (updEntry k m p) := by
  obtain ⟨hk, hcl, hds, hsr⟩ := h
  unfold updEntry
  split
  · exact ⟨hk, addRefs_clean _ hcl, hds, hsr⟩
  · exact ⟨hk, hcl, hds, hsr⟩

theorem aggInsert_stateInv {acc : List ((String × String × Option ℚ × Option String) × EvidenceItem)}
    (m : EvidenceItem) (h : StateInv acc) : StateInv (aggInsert acc m) := by
  obtain ⟨hnd, hmem⟩ := h
  unfold aggInsert
  split_ifs with hc
  · constructor
    · rw [List.map_map]
      have hco : List.map (Prod.fst ∘ updEntry (aggKey m) m) acc = List.map Prod.fst acc :=
        List.map_congr_left (fun p _ => updEntry_fst (aggKey m) m p)
      rw [hco]
      exact hnd
    · intro p hp
      obtain ⟨q, hq, rfl⟩ := List.mem_map.mp hp
      exact updEntry_entryInv _ _ (hmem q hq)
  · constructor
    · rw [List.map_append]
      apply List.Nodup.append hnd (List.nodup_singleton _)
      intro a ha hb
      simp only [List.map_cons, List.map_nil, List.mem_singleton] at hb
      obtain ⟨p, hp, hpa⟩ := List.mem_map.mp ha
      apply hc
      apply List.any_eq_true.mpr
      exact ⟨p, hp, by rw [decide_eq_true_eq, hpa, hb]⟩
    · intro p hp
      rcases List.mem_append.mp hp with hp | hp
      · exact hmem p hp
      · rw [List.mem_singleton] at hp
        subst hp
        exact ⟨rfl, addRefs_clean _ cleanRefs_nil, rfl, rfl⟩

theorem foldl_aggInsert_stateInv (l : List EvidenceItem) :
    StateInv (l.foldl aggInsert []) := by
  have hgen : ∀ acc, StateInv acc → StateInv (l.foldl aggInsert acc) := by
    induction l with
    | nil => exact fun acc h => h
    | cons m t ih => exact fun acc h => ih _ (aggInsert_stateInv m h)
  exact hgen [] ⟨List.nodup_nil, by intro p hp; cases hp⟩

theorem aggInsert_fresh {acc : List ((String × String × Option ℚ × Option String) × EvidenceItem)}
    (m : EvidenceItem) (h : aggKey m ∉ acc.map Prod.fst) :
    aggInsert acc m =
      acc ++ [(aggKey m, { initMerged m with references := addRefs [] m.references })] := by
  unfold aggInsert
  rw [if_neg]
  intro hx
  obtain ⟨p, hp, hpk⟩ := List.any_eq_true.mp hx
  rw [decide_eq_true_eq] at hpk
  exact h (hpk ▸ List.mem_map_of_mem Prod.fst hp)

theorem initMerged_refs_id {m : EvidenceItem} (h1 : m.datasourceId = none)
    (h2 : m.source = none) (hc : CleanRefs m.references) :
    { initMerged m with references := addRefs [] m.references } = m := by
  have hr : addRefs [] m.references = m.references := by
    apply addRefs_of_fresh _ _ hc.1 hc.2
    intro r _ hmem
    simp at hmem
  unfold initMerged
  cases m
  simp_all

theorem foldl_aggInsert_distinct :
    ∀ (l : List EvidenceItem)
      (acc : List ((String × String × Option ℚ × Option String) × EvidenceItem)),
    (acc.map Prod.fst ++ l.map aggKey).Nodup →
    (∀ m ∈ l, m.datasourceId = none ∧ m.source = none ∧ CleanRefs m.references) →
    l.foldl aggInsert acc = acc ++ l.map (fun m => (aggKey m, m)) := by
  intro l
  induction l with
  | nil => intro acc _ _; simp
  | cons m t ih =>
    intro acc hnd hf
    obtain ⟨h1, h2, h3⟩ := hf m (List.mem_cons_self m t)
    have hfresh : aggKey m ∉ acc.map Prod.fst := by
      intro hmem
      rw [List.nodup_append] at hnd
      exact hnd.2.2 hmem (by simp)
    have hstep : aggInsert acc m = acc ++ [(aggKey m, m)] := by
      rw [aggInsert_fresh m hfresh, initMerged_refs_id h1 h2 h3]
    have hnd' : ((acc ++ [(aggKey m, m)]).map Prod.fst ++ t.map aggKey).Nodup := by
      simp only [List.map_append, List.map_cons, List.map_nil, List.append_assoc,
        List.singleton_append]
      simpa using hnd
    calc (m :: t).foldl aggInsert acc = t.foldl aggInsert (aggInsert acc m) := rfl
      _ = t.foldl aggInsert (acc ++ [(aggKey m, m)]) := by rw [hstep]
      _ = (acc ++ [(aggKey m, m)]) ++ t.map (fun m => (aggKey m, m)) :=
          ih _ hnd' (fun x hx => hf x (List.mem_cons_of_mem m hx))
      _ = acc ++ ((m :: t).map (fun m => (aggKey m, m))) := by
          simp [List.append_assoc]

/-- C6: the evidence aggregation is idempotent — aggregating an
already-aggregated list returns it unchanged (no group splits or merges and
no reference changes on re-run). -/
theorem C6_aggregate_idempotent (l : List EvidenceItem) :
    aggregate_sources (aggregate_sources l) = aggregate_sources l := by
  obtain ⟨hnd, hmem⟩ := foldl_aggInsert_stateInv l
  have hkeys : (aggregate_sources l).map aggKey = (l.foldl aggInsert []).map Prod.fst := by
    show ((l.foldl aggInsert []).map Prod.snd).map aggKey = _
    rw [List.map_map]
    exact List.map_congr_left (fun p hp => ((hmem p hp).1).symm)
  have hfields : ∀ m ∈ aggregate_sources l,
      m.datasourceId = none ∧ m.source = none ∧ CleanRefs m.references := by
    intro m hm
    obtain ⟨p, hp, rfl⟩ := List.mem_map.mp hm
    exact ⟨(hmem p hp).2.2.1, (hmem p hp).2.2.2, (hmem p hp).2.1⟩
  have h2 := foldl_aggInsert_distinct (aggregate_sources l) []
    (by simpa [hkeys] using hnd) hfields
  show ((aggregate_sources l).foldl aggInsert []).map Prod.snd = aggregate_sources l
  rw [h2]
  simp only [List.nil_append, List.map_map]
  exact (List.map_congr_left (fun m _ => rfl)).trans (List.map_id _)

theorem knownDrugsLoop_spec (oracle : ℕ → NetResult) :
    ∀ (rem attempt : ℕ),
      (knownDrugsLoop oracle attempt rem).2.2 ≤ rem ∧
      (0 < rem → 0 < (knownDrugsLoop oracle attempt rem).2.2) ∧
      (∀ i, i + 1 < (knownDrugsLoop oracle attempt rem).2.2 →
        oracle (attempt + i) = NetResult.timeout) ∧
      (knownDrugsLoop oracle attempt rem).2.1 =
        (List.range ((knownDrugsLoop oracle attempt rem).2.2 - 1)).map
          (fun i => 2 ^ (attempt + i)) := by
  intro rem
  induction rem with
  | zero =>
    intro attempt
    refine ⟨le_refl 0, by omega, ?_, rfl⟩
    intro i h
    rw [show (knownDrugsLoop oracle attempt 0).2.2 = 0 from rfl] at h
    omega
  | succ rem ih =>
    intro attempt
    cases ho : oracle attempt with
    | ok rows =>
      refine ⟨?_, ?_, ?_, ?_⟩ <;> simp [knownDrugsLoop, ho]
    | err =>
      refine ⟨?_, ?_, ?_, ?_⟩ <;> simp [knownDrugsLoop, ho]
    | timeout =>
      obtain ⟨iha, ihp, iht, ihs⟩ := ih (attempt + 1)
      have hunf : knownDrugsLoop oracle attempt (rem + 1) =
          ((knownDrugsLoop oracle (attempt + 1) rem).1,
            (if rem > 0 then [2 ^ attempt] else []) ++
              (knownDrugsLoop oracle (attempt + 1) rem).2.1,
            (knownDrugsLoop oracle (attempt + 1) rem).2.2 + 1) := by
        simp [knownDrugsLoop, ho]
      rw [hunf]
      refine ⟨by simpa using iha, fun _ => by simp, ?_, ?_⟩
      · intro i hi
        cases i with
        | zero => simpa using ho
        | succ j =>
          have hj : j + 1 < (knownDrugsLoop oracle (attempt + 1) rem).2.2 := by
            simpa using hi
          have := iht j hj
          have harith : attempt + 1 + j = attempt + (j + 1) := by omega
          rw [harith] at this
          exact this
      · rcases Nat.eq_zero_or_pos rem with hrem | hrem
        · subst hrem
          simp [knownDrugsLoop]
        · have hpos := ihp hrem
          rw [if_pos hrem, ihs]
          obtain ⟨a, ha⟩ : ∃ a, (knownDrugsLoop oracle (attempt + 1) rem).2.2 = a + 1 :=
            ⟨_, (Nat.succ_pred_eq_of_pos hpos).symm⟩
          rw [ha]
          simp only [Nat.add_sub_cancel, List.singleton_append]
          rw [List.range_succ_eq_map, List.map_cons, List.map_map]
          refine congrArg₂ List.cons (by rw [Nat.add_zero]) ?_
          apply List.map_congr_left
          intro i _
          show 2 ^ (attempt + 1 + i) = 2 ^ (attempt + Nat.succ i)
          exact congrArg (2 ^ ·) (by omega)

/-- C7: `get_drug_target_interactions` returns empty immediately — no
knownDrugs attempts, no backoff sleeps, no evidence query — when drug
resolution fails; otherwise the knownDrugs query makes at most `max_retries`
attempts, every attempt before the last was a timeout (so a non-timeout error
or a success ends the loop at once), and the backoff sleeps are exactly
`2^attempt` seconds for the completed timeout attempts. -/
theorem C7_fetch_resolve_and_retry :
    (∀ (oracle : ℕ → NetResult) (evOracle : Option (List EvRow)) (targetId : String)
        (maxRetries : ℕ),
      get_drug_target_interactions none oracle evOracle targetId maxRetries =
        ([], { attempts := 0, sleeps := [], evidenceQueryMade := false })) ∧
    (∀ (drugId name : String) (oracle : ℕ → NetResult) (evOracle : Option (List EvRow))
        (targetId : String) (maxRetries : ℕ),
      (get_drug_target_interactions (some (drugId, name)) oracle evOracle targetId
          maxRetries).2.attempts ≤ maxRetries ∧
      (∀ i, i + 1 < (get_drug_target_interactions (some (drugId, name)) oracle evOracle
          targetId maxRetries).2.attempts → oracle i = NetResult.timeout) ∧
      (get_drug_target_interactions (some (drugId, name)) oracle evOracle targetId
          maxRetries).2.sleeps =
        (List.range ((get_drug_target_interactions (some (drugId, name)) oracle evOracle
          targetId maxRetries).2.attempts - 1)).map (fun i => 2 ^ i)) := by
  constructor
  · intro oracle evOracle targetId maxRetries
    rfl
  · intro drugId name oracle evOracle targetId maxRetries
    have htr : (get_drug_target_interactions (some (drugId, name)) oracle evOracle targetId
        maxRetries).2 =
        { attempts := (knownDrugsLoop oracle 0 maxRetries).2.2,
          sleeps := (knownDrugsLoop oracle 0 maxRetries).2.1,
          evidenceQueryMade := true } := rfl
    obtain ⟨ha, -, ht, hs⟩ := knownDrugsLoop_spec oracle maxRetries 0
    rw [htr]
    refine ⟨ha, ?_, ?_⟩
    · intro i hi
      have := ht i (by simpa using hi)
      rwa [Nat.zero_add] at this
    · simp only [hs]
      apply List.map_congr_left
      intro i _
      rw [Nat.zero_add]

/-- Witness for `C7_fetch_resolve_and_retry` with an oracle that times out
once then succeeds: two attempts, timeout established for the first. -/
theorem C7_fetch_resolve_and_retry_witness :
    (fun n => if n = 0 then NetResult.timeout else NetResult.ok []) 0 =
      NetResult.timeout ∧
    (get_drug_target_interactions (some ("CHEMBL941", "IMATINIB"))
        (fun n => if n = 0 then NetResult.timeout else NetResult.ok [])
        none "ENSG00000097007" 3).2.attempts ≤ 3 :=
  ⟨(C7_fetch_resolve_and_retry.2 "CHEMBL941" "IMATINIB"
      (fun n => if n = 0 then NetResult.timeout else NetResult.ok [])
      none "ENSG00000097007" 3).2.1 0 (by decide),
    (C7_fetch_resolve_and_retry.2 "CHEMBL941" "IMATINIB"
      (fun n => if n = 0 then NetResult.timeout else NetResult.ok [])
      none "ENSG00000097007" 3).1⟩

/-- C8: the deterministic pattern extractor returns both entities (groups 1
and 2 of the first template outcome that matches) or neither, never exactly
one. -/
theorem C8_both_or_neither (outs : List (Option (String × String))) :
    ((extract_regex_entities outs).1 = none ↔ (extract_regex_entities outs).2 = none) ∧
    (∀ d t, outs.findSome? id = some (d, t) →
      extract_regex_entities outs = (some d, some t)) ∧
    (outs.findSome? id = none → extract_regex_entities outs = (none, none)) := by
  unfold extract_regex_entities
  rcases h : outs.findSome? id with - | ⟨d, t⟩ <;>
    simp

/-- Witness for `C8_both_or_neither` with a concrete second-template match. -/
theorem C8_both_or_neither_witness :
    ([none, some ("Imatinib", "BCR-ABL1")] : List (Option (String × String))).findSome? id =
      some ("Imatinib", "BCR-ABL1") ∧
    extract_regex_entities [none, some ("Imatinib", "BCR-ABL1")] =
      (some "Imatinib", some "BCR-ABL1") :=
  ⟨rfl, (C8_both_or_neither [none, some ("Imatinib", "BCR-ABL1")]).2.1 "Imatinib" "BCR-ABL1" rfl⟩

/-- C10: the narrative entry point returns the fixed fallback string and does
not invoke the text-generation capability when the digest's confidence score
is 0.0 or its evidence-item list is empty. -/
theorem C10_zero_confidence_fallback (ready : Bool) (d : EvidenceData)
    (gen : EvidenceData → String)
    (h : d.metadata.confidence_score = some 0 ∨ d.evidence_items = []) :
    LLMService.analyze ready d gen = (FALLBACK_PROMPT, false) := by
  unfold LLMService.analyze
  rw [if_pos h]

/-- Witness for `C10_zero_confidence_fallback` on a concrete zero-confidence
digest. -/
theorem C10_zero_confidence_fallback_witness :
    LLMService.analyze true
      ⟨⟨some 0, 4, 1, 1, ["ChEMBL"], "r"⟩,
        [⟨some "Imatinib", "BCR-ABL1", none, some 4, none, ["ChEMBL"]⟩]⟩
      (fun _ => "generated") = (FALLBACK_PROMPT, false) :=
  C10_zero_confidence_fallback true
    ⟨⟨some 0, 4, 1, 1, ["ChEMBL"], "r"⟩,
      [⟨some "Imatinib", "BCR-ABL1", none, some 4, none, ["ChEMBL"]⟩]⟩
    (fun _ => "generated") (Or.inl rfl)

end BioInsight
